import Mathlib

/-!
Verification of `becool.py`, a weather app that determines the coolest zip
code within a fixed radius of a user-supplied zip code.

Python dictionaries (insertion-ordered, string keys) are modelled as
association lists `List (String × α)`; dictionary subscription is `lookup`
(first match) and dictionary assignment is `dinsert` (replace in place if
the key exists, else append, matching CPython semantics). Temperatures and
coordinates (Python floats) are modelled as rationals. Fallible operations
(dictionary subscription of a missing key, list indexing out of range,
reading data out of an error response) return `Option`.

External services (the `uszipcode` search engine and the Open-Meteo client)
are passed in as function parameters / explicit response lists.
-/

namespace Becool

/-- First-match lookup of a key in an association list, the model of
Python dictionary subscription `d[k]` (`none` models `KeyError`). -/
def lookup {α : Type} : List (String × α) → String → Option α
  | [], _ => none
  | (k, v) :: rest, key => if key = k then some v else lookup rest key

/-- The keys of an association list, in order. -/
def keys {α : Type} (d : List (String × α)) : List String :=
  d.map Prod.fst

/-- Python dictionary assignment `d[k] = v`: replaces the value in place if
`k` is already a key, otherwise appends the new pair at the end. -/
def dinsert {α : Type} : List (String × α) → String → α → List (String × α)
  | [], k, v => [(k, v)]
  | (k', v') :: rest, k, v =>
      if k' = k then (k, v) :: rest else (k', v') :: dinsert rest k v

/-- Location data as stored in the nested dictionaries built by
`get_zip_basics` and `get_local_zips` (inner keys `city`, `lat`, `lng`). -/
structure LocInfo where
  city : String
  lat : ℚ
  lng : ℚ
deriving DecidableEq

/-- A row returned by the `uszipcode` search engine (fields of the
`SimpleZipcode` objects the program reads: `zipcode`, `major_city`,
`lat`, `lng`). -/
structure ZipRow where
  zipcode : String
  major_city : String
  lat : ℚ
  lng : ℚ
deriving DecidableEq

/-- A weather record as stored by `get_weather` (inner keys `city`, `lat`,
`lng`, `curr_temp`, `max_temp`). -/
structure WRec where
  city : String
  lat : ℚ
  lng : ℚ
  curr_temp : ℚ
  max_temp : ℚ
deriving DecidableEq

/-- `DEFAULT_ZIP_DATA` constant from the source. -/
def DEFAULT_ZIP_DATA : List (String × LocInfo) :=
  [("94101", ⟨"San Francisco", (3777 : ℚ) / 100, -(12241 : ℚ) / 100⟩)]

/-- `RADIUS` constant from the source (miles). -/
def RADIUS : ℚ := 10

/-- Result of `get_zip_basics`: the returned pair `(zip_data, zip_code)`
plus whether the not-found notice was printed. -/
structure ZipBasicsOut where
  zip_data : List (String × LocInfo)
  zip_code : String
  notice : Bool
deriving DecidableEq

/-- `get_zip_basics` from the source. The `uszipcode` search engine
(`search.by_zipcode`) is external and passed in as `search`; `none` models
a falsy result (zip code not in the database). On failure the function
prints the notice, replaces `zip_code` with `"94101"` and uses
`DEFAULT_ZIP_DATA`; on success it stores city/lat/lng under key
`z.zipcode` and returns the original `zip_code` unchanged. -/
def get_zip_basics (search : String → Option ZipRow) (zip_code : String) :
    ZipBasicsOut :=
  match search zip_code with
  | none => ⟨DEFAULT_ZIP_DATA, "94101", true⟩
  | some z => ⟨[(z.zipcode, ⟨z.major_city, z.lat, z.lng⟩)], zip_code, false⟩

/-- `get_local_zips` from the source. The `uszipcode` radius search
(`search.by_coordinates`) is external and passed in as `by_coordinates`;
the function copies each returned row into a nested dictionary keyed by
`z.zipcode`. -/
def get_local_zips (by_coordinates : ℚ → ℚ → ℚ → List ZipRow)
    (lat lng rad : ℚ) : List (String × LocInfo) :=
  (by_coordinates lat lng rad).foldl
    (fun d z => dinsert d z.zipcode ⟨z.major_city, z.lat, z.lng⟩) []

/-- `get_lat_long_params` from the source: iterates over the dictionary
keys in order, appending the key, its `lat` and its `lng` to three lists.
Since iteration yields each entry once in order, the three appends per key
amount to mapping over the entries. -/
def get_lat_long_params (nearby_locs : List (String × LocInfo)) :
    List String × List ℚ × List ℚ :=
  (nearby_locs.map Prod.fst,
   nearby_locs.map (fun e => e.2.lat),
   nearby_locs.map (fun e => e.2.lng))

/-- The fields the program reads out of one Open-Meteo response:
`Latitude()`, `Longitude()`, `Current().Variables(0).Value()` and
`Daily().Variables(0).ValuesAsNumpy()[0]`. -/
structure RespData where
  lat : ℚ
  lng : ℚ
  current_temperature_2m : ℚ
  daily_max : ℚ
deriving DecidableEq

/-- Loop body of `get_weather` over `enumerate(responses)`. Each step reads
`zip_codes[i]` (list indexing, fallible), `nearby_locs[zip_code]["city"]`
(dictionary subscription, fallible) and the response data (`none` models a
response lacking usable data, on which the attribute reads raise); any
failure aborts the whole call, since the source has no error handling in
this loop. -/
def get_weather_loop (nearby_locs : List (String × LocInfo))
    (zip_codes : List String) :
    Nat → List (Option RespData) → List (String × WRec) →
    Option (List (String × WRec))
  | _, [], acc => some acc
  | i, resp :: rest, acc =>
      match zip_codes[i]? with
      | none => none
      | some zip_code =>
          match lookup nearby_locs zip_code with
          | none => none
          | some loc =>
              match resp with
              | none => none
              | some d =>
                  get_weather_loop nearby_locs zip_codes (i + 1) rest
                    (dinsert acc zip_code
                      ⟨loc.city, d.lat, d.lng, d.current_temperature_2m,
                       d.daily_max⟩)

/-- `get_weather` from the source. The Open-Meteo client call
(`openmeteo.weather_api`) is external; `responses` is the list it returns,
one per requested location in request order. -/
def get_weather (nearby_locs : List (String × LocInfo))
    (responses : List (Option RespData)) : Option (List (String × WRec)) :=
  get_weather_loop nearby_locs (get_lat_long_params nearby_locs).1 0 responses []

/-- Loop body of `calculate_coolest_zip`: keep the current candidate unless
the entry's `max_temp` is strictly smaller. -/
def scanStep (acc : String × ℚ) (e : String × WRec) : String × ℚ :=
  if e.2.max_temp < acc.2 then (e.1, e.2.max_temp) else acc

/-- `calculate_coolest_zip` from the source: initial candidate is
`(my_zip, weather_results[my_zip]["max_temp"])` (a fallible dictionary
subscription, hence `Option`), then a linear scan over the dictionary
entries in order replacing the candidate on strictly smaller `max_temp`. -/
def calculate_coolest_zip (weather_results : List (String × WRec))
    (my_zip : String) : Option String :=
  (lookup weather_results my_zip).map
    (fun r => (weather_results.foldl scanStep (my_zip, r.max_temp)).1)

/-- Stated from the spec for comparison with `calculate_coolest_zip`: the
candidate sequence is the originating record followed by the scanned
entries in order, and the earliest candidate attaining the minimum
`max_temp` wins. -/
def specCoolest (weather_results : List (String × WRec)) (my_zip : String) :
    Option String :=
  (lookup weather_results my_zip).bind (fun r =>
    let cands := (my_zip, r.max_temp) ::
      weather_results.map (fun e => (e.1, e.2.max_temp))
    let m := cands.foldl (fun a p => min a p.2) r.max_temp
    (cands.find? (fun p => p.2 = m)).map Prod.fst)

/-- Rounding half to even at integer precision, the semantics of Python's
builtin `round`, written out on the numerator and denominator so that it
evaluates inside the kernel: for `x = n / d` (`d > 0`) the floor is
`n / d` (integer division toward negative infinity) with remainder
`r = n % d` in `[0, d)`, and the fractional part `r / d` compares to `1/2`
as `2 * r` compares to `d`. -/
def roundHalfEven (x : ℚ) : ℤ :=
  let d : ℤ := (x.den : ℤ)
  let f : ℤ := x.num / d
  let r : ℤ := x.num % d
  if 2 * r < d then f
  else if 2 * r > d then f + 1
  else if f % 2 = 0 then f else f + 1

/-- Python `round(x, 1)`: round half to even at one decimal place, that is
`roundHalfEven (x * 10) / 10`, with the scaling by ten written on the
numerator (`mkRat (x.num * 10) x.den = x * 10`) so that the kernel can
evaluate it. -/
def pyRound1 (x : ℚ) : ℚ :=
  mkRat (roundHalfEven (mkRat (x.num * 10) x.den)) 10

/-- One displayed location block: the zip code and city printed, and the
two printed temperatures. -/
structure ShownTemp where
  zip_code : String
  city : String
  curr_temp : ℚ
  max_temp : ℚ
deriving DecidableEq

/-- Output of `display_results`: the location blocks printed in order, and
whether the your-zip-is-the-coolest notice was printed. -/
structure DisplayOut where
  shown : List ShownTemp
  coolest_notice : Bool
deriving DecidableEq

/-- `display_results` from the source. If `my_zip == coolest_zip` it prints
one block for `my_zip` plus the coolest-in-radius notice; otherwise it
prints a block for each of `[my_zip, coolest_zip]`. Dictionary
subscriptions are fallible; temperatures are printed rounded to one
decimal with Python `round`. -/
def display_results (weather_results : List (String × WRec))
    (my_zip coolest_zip : String) : Option DisplayOut :=
  if my_zip = coolest_zip then
    (lookup weather_results my_zip).map (fun r =>
      ⟨[⟨my_zip, r.city, pyRound1 r.curr_temp, pyRound1 r.max_temp⟩], true⟩)
  else
    (lookup weather_results my_zip).bind (fun r1 =>
      (lookup weather_results coolest_zip).map (fun r2 =>
        ⟨[⟨my_zip, r1.city, pyRound1 r1.curr_temp, pyRound1 r1.max_temp⟩,
          ⟨coolest_zip, r2.city, pyRound1 r2.curr_temp, pyRound1 r2.max_temp⟩],
         false⟩))

/-- The `(zip code, max_temp)` projection of a weather entry, the data the
coolest-zip scan actually compares. -/
def toPair (e : String × WRec) : String × ℚ := (e.1, e.2.max_temp)

/-- `scanStep` restated on projected pairs. -/
def pstep (acc p : String × ℚ) : String × ℚ :=
  if p.2 < acc.2 then p else acc

/-- Running minimum of the `max_temp` components, starting from `m`. -/
def minList (m : ℚ) (ps : List (String × ℚ)) : ℚ :=
  ps.foldl (fun a p => min a p.2) m

/-- A concrete `uszipcode` search oracle used in witnesses: knows only the
zip code 10001. -/
def demoSearch : String → Option ZipRow :=
  fun s => if s = "10001" then some ⟨"10001", "New York", 40, -73⟩ else none

/-- A concrete radius-search oracle used in witnesses. -/
def demoByCoordinates : ℚ → ℚ → ℚ → List ZipRow :=
  fun _ _ _ => [⟨"94101", "San Francisco", 37, -122⟩,
                ⟨"94102", "San Francisco", 38, -121⟩]

/-- A concrete nearby-locations dictionary used in witnesses. -/
def demoLocs : List (String × LocInfo) :=
  [("94101", ⟨"San Francisco", 37, -122⟩),
   ("94102", ⟨"San Francisco", 38, -121⟩)]

/-- Responses for `demoLocs` in which the first location's response lacks
usable data. -/
def demoErrResps : List (Option RespData) :=
  [none, some ⟨38, -121, 60, 70⟩]

/-- Responses for `demoLocs` in which both locations have usable data. -/
def demoGoodResps : List (Option RespData) :=
  [some ⟨37, -122, 59, 69⟩, some ⟨38, -121, 60, 70⟩]

/-- A concrete weather-results dictionary used in witnesses: a tie on the
minimum `max_temp` between the second and third entries. -/
def demoWeather : List (String × WRec) :=
  [("94101", ⟨"San Francisco", 37, -122, 60, 70⟩),
   ("94102", ⟨"San Francisco", 38, -121, 59, 65⟩),
   ("94103", ⟨"San Francisco", 39, -120, 58, 65⟩)]

/-- The weather dictionary `get_weather` builds from `demoLocs` and
`demoGoodResps`. -/
def demoGoodWeather : List (String × WRec) :=
  [("94101", ⟨"San Francisco", 37, -122, 59, 69⟩),
   ("94102", ⟨"San Francisco", 38, -121, 60, 70⟩)]

/-- The display output for `demoWeather` with origin 94101 and coolest
94102. -/
def demoDisplayOut : DisplayOut :=
  ⟨[⟨"94101", "San Francisco", 60, 70⟩,
    ⟨"94102", "San Francisco", 59, 65⟩], false⟩

theorem lookup_mem {α : Type} {d : List (String × α)} {k : String} {v : α}
    (h : lookup d k = some v) : (k, v) ∈ d := by
  induction d with
  | nil => simp [lookup] at h
  | cons e rest ih =>
      obtain ⟨k', v'⟩ := e
      by_cases hk : k = k'
      · subst hk
        simp [lookup] at h
        subst h
        exact List.mem_cons_self _ _
      · simp [lookup, hk] at h
        exact List.mem_cons_of_mem _ (ih h)

theorem lookup_isSome_of_mem_keys {α : Type} {d : List (String × α)} {k : String}
    (h : k ∈ keys d) : ∃ v, lookup d k = some v := by
  induction d with
  | nil => simp [keys] at h
  | cons e rest ih =>
      obtain ⟨k', v'⟩ := e
      by_cases hk : k = k'
      · exact ⟨v', by simp [lookup, hk]⟩
      · simp [keys, hk] at h
        obtain ⟨v, hv⟩ := ih (by simpa [keys] using h)
        exact ⟨v, by simp [lookup, hk, hv]⟩

theorem mem_keys_dinsert_self {α : Type} (d : List (String × α)) (k : String) (v : α) :
    k ∈ keys (dinsert d k v) := by
  induction d with
  | nil => simp [dinsert, keys]
  | cons e rest ih =>
      obtain ⟨k', v'⟩ := e
      by_cases hk : k' = k
      · simp [dinsert, hk, keys]
      · simp [dinsert, hk, keys] at ih ⊢
        exact Or.inr ih

theorem mem_keys_dinsert_of_mem {α : Type} {d : List (String × α)} {a : String}
    (k : String) (v : α) (h : a ∈ keys d) : a ∈ keys (dinsert d k v) := by
  induction d with
  | nil => simp [keys] at h
  | cons e rest ih =>
      obtain ⟨k', v'⟩ := e
      by_cases hk : k' = k
      · subst hk
        simp [keys] at h
        rcases h with h | h
        · simp [dinsert, keys, h]
        · simp [dinsert, keys]
          exact Or.inr h
      · simp [keys] at h
        rcases h with h | h
        · simp [dinsert, hk, keys, h]
        · simp [dinsert, hk, keys]
          exact Or.inr (by simpa [keys] using ih (by simpa [keys] using h))

theorem keys_dinsert_subset {α : Type} (d : List (String × α)) (k : String) (v : α) :
    ∀ a ∈ keys (dinsert d k v), a = k ∨ a ∈ keys d := by
  induction d with
  | nil => intro a ha; simp [dinsert, keys] at ha; exact Or.inl ha
  | cons e rest ih =>
      obtain ⟨k', v'⟩ := e
      intro a ha
      by_cases hk : k' = k
      · simp [dinsert, hk, keys] at ha
        rcases ha with ha | ha
        · exact Or.inl ha
        · exact Or.inr (by simp [keys]; exact Or.inr ha)
      · simp [dinsert, hk, keys] at ha
        rcases ha with ha | ha
        · exact Or.inr (by simp [keys, ha])
        · rcases ih a (by simpa [keys] using ha) with h | h
          · exact Or.inl h
          · exact Or.inr (by simp [keys]; exact Or.inr (by simpa [keys] using h))

theorem get_weather_loop_none (locs : List (String × LocInfo))
    (zips : List String) :
    ∀ (resps : List (Option RespData)) (i : Nat) (acc : List (String × WRec)),
    none ∈ resps → get_weather_loop locs zips i resps acc = none := by
  intro resps
  induction resps with
  | nil => intro i acc h; simp at h
  | cons r rest ih =>
      intro i acc h
      rcases List.mem_cons.mp h with hr | hr
      · subst hr
        cases hz : zips[i]? with
        | none => simp [get_weather_loop, hz]
        | some zc =>
            cases hl : lookup locs zc with
            | none => simp [get_weather_loop, hz, hl]
            | some loc => simp [get_weather_loop, hz, hl]
      · cases hz : zips[i]? with
        | none => simp [get_weather_loop, hz]
        | some zc =>
            cases hl : lookup locs zc with
            | none => simp [get_weather_loop, hz, hl]
            | some loc =>
                cases r with
                | none => simp [get_weather_loop, hz, hl]
                | some d =>
                    simp only [get_weather_loop, hz, hl]
                    exact ih _ _ hr

/-- C2 counterexample: with two locations where the first response lacks
usable data, `get_weather` does not drop the first location and continue
with the second; the whole call fails and produces no result dictionary at
all (the second conjunct shows that with usable data for both locations the
same call succeeds). -/
theorem C2_counterexample :
    get_weather demoLocs demoErrResps = none ∧
    get_weather demoLocs demoGoodResps =
      some [("94101", ⟨"San Francisco", 37, -122, 59, 69⟩),
            ("94102", ⟨"San Francisco", 38, -121, 60, 70⟩)] := by
  exact ⟨by decide, by decide⟩

/-- C2 amended: `get_weather` performs no per-location error handling: a
response lacking usable data is not dropped; its presence makes the whole
call fail, so no result is produced for the remaining locations either. -/
theorem C2_error_aborts_whole_call (locs : List (String × LocInfo))
    (resps : List (Option RespData)) (h : none ∈ resps) :
    get_weather locs resps = none :=
  get_weather_loop_none locs (get_lat_long_params locs).1 resps 0 [] h

theorem C2_error_aborts_whole_call_witness :
    none ∈ demoErrResps ∧ get_weather demoLocs demoErrResps = none :=
  ⟨by decide, C2_error_aborts_whole_call demoLocs demoErrResps (by decide)⟩

/-- C3 counterexample: when the weather results contain no usable record at
all, the coolest-selection step does not print a notice and stop cleanly:
the dictionary subscription `weather_results[my_zip]` fails (a `KeyError`,
modelled as `none`). -/
theorem C3_counterexample :
    calculate_coolest_zip ([] : List (String × WRec)) "94101" = none := rfl

/-- C3 amended: when no location has max_temp data the program does not
print a notice; instead `calculate_coolest_zip` fails on the lookup of the
originating zip code, so the selection and reporting steps are never
reached with a result. -/
theorem C3_empty_results_fail (my_zip : String) :
    calculate_coolest_zip ([] : List (String × WRec)) my_zip = none := rfl

/-- C4: `get_zip_basics` falls back to the hardcoded default location
(`"94101"`, San Francisco) and emits the notice exactly when the zip-code
lookup fails; on success it returns the looked-up zip code with its city,
latitude and longitude, without the fallback or the notice. -/
theorem C4_fallback_iff_lookup_fails (search : String → Option ZipRow)
    (s : String) :
    (search s = none →
      get_zip_basics search s = ⟨DEFAULT_ZIP_DATA, "94101", true⟩) ∧
    (∀ z, search s = some z →
      get_zip_basics search s =
        ⟨[(z.zipcode, ⟨z.major_city, z.lat, z.lng⟩)], s, false⟩) ∧
    ((get_zip_basics search s).notice = true ↔ search s = none) := by
  refine ⟨?_, ?_, ?_⟩
  · intro hs; simp [get_zip_basics, hs]
  · intro z hz; simp [get_zip_basics, hz]
  · cases hs : search s <;> simp [get_zip_basics, hs]

theorem C4_fallback_iff_lookup_fails_witness :
    get_zip_basics demoSearch "10001" =
      ⟨[("10001", ⟨"New York", 40, -73⟩)], "10001", false⟩ ∧
    get_zip_basics demoSearch "00000" = ⟨DEFAULT_ZIP_DATA, "94101", true⟩ :=
  ⟨(C4_fallback_iff_lookup_fails demoSearch "10001").2.1
      ⟨"10001", "New York", 40, -73⟩ (by decide),
   (C4_fallback_iff_lookup_fails demoSearch "00000").1 (by decide)⟩

/-- C9: assuming the external zip-code database returns rows whose
`zipcode` field equals the queried string (exact-match lookup), the pair
returned by `get_zip_basics` satisfies: `zip_data` is a one-entry
dictionary whose sole key is the returned `zip_code`, so the subsequent
subscription `zip_data[zip_code]` in `main` succeeds. -/
theorem C9_single_entry_keyed_by_result (search : String → Option ZipRow)
    (s : String) (hexact : ∀ z, search s = some z → z.zipcode = s) :
    ∃ v, (get_zip_basics search s).zip_data =
        [((get_zip_basics search s).zip_code, v)] ∧
      lookup (get_zip_basics search s).zip_data
        (get_zip_basics search s).zip_code = some v := by
  cases hs : search s with
  | none =>
      refine ⟨⟨"San Francisco", (3777 : ℚ) / 100, -(12241 : ℚ) / 100⟩, ?_, ?_⟩ <;>
        simp [get_zip_basics, hs, DEFAULT_ZIP_DATA, lookup]
  | some z =>
      have hz := hexact z hs
      refine ⟨⟨z.major_city, z.lat, z.lng⟩, ?_, ?_⟩ <;>
        simp [get_zip_basics, hs, hz, lookup]

theorem C9_single_entry_keyed_by_result_witness :
    (∀ z, demoSearch "10001" = some z → z.zipcode = "10001") ∧
    ∃ v, (get_zip_basics demoSearch "10001").zip_data =
        [((get_zip_basics demoSearch "10001").zip_code, v)] ∧
      lookup (get_zip_basics demoSearch "10001").zip_data
        (get_zip_basics demoSearch "10001").zip_code = some v := by
  have hx : ∀ z, demoSearch "10001" = some z → z.zipcode = "10001" := by
    intro z hz
    simp [demoSearch] at hz
    simp [← hz]
  exact ⟨hx, C9_single_entry_keyed_by_result demoSearch "10001" hx⟩

theorem foldl_dinsert_mem (rows : List ZipRow) :
    ∀ (d : List (String × LocInfo)) (a : String),
    (a ∈ keys d ∨ ∃ z ∈ rows, z.zipcode = a) →
    a ∈ keys (rows.foldl
      (fun d z => dinsert d z.zipcode ⟨z.major_city, z.lat, z.lng⟩) d) := by
  induction rows with
  | nil =>
      intro d a h
      rcases h with h | ⟨z, hz, _⟩
      · exact h
      · simp at hz
  | cons z rows ih =>
      intro d a h
      simp only [List.foldl_cons]
      apply ih
      rcases h with h | ⟨w, hw, hwz⟩
      · exact Or.inl (mem_keys_dinsert_of_mem _ _ h)
      · rcases List.mem_cons.mp hw with rfl | hw'
        · exact Or.inl (hwz ▸ mem_keys_dinsert_self d w.zipcode _)
        · exact Or.inr ⟨w, hw', hwz⟩

/-- C5: whenever the external radius search returns a row for the origin
zip code (which the spec states it always does), that zip code is a key of
the dictionary `get_local_zips` returns. -/
theorem C5_origin_included (by_coordinates : ℚ → ℚ → ℚ → List ZipRow)
    (lat lng rad : ℚ) (origin : String)
    (h : ∃ z ∈ by_coordinates lat lng rad, z.zipcode = origin) :
    origin ∈ keys (get_local_zips by_coordinates lat lng rad) := by
  unfold get_local_zips
  exact foldl_dinsert_mem _ _ _ (Or.inr h)

theorem C5_origin_included_witness :
    (∃ z ∈ demoByCoordinates 37 (-122) 10, z.zipcode = "94101") ∧
    "94101" ∈ keys (get_local_zips demoByCoordinates 37 (-122) 10) :=
  ⟨by decide,
   C5_origin_included demoByCoordinates 37 (-122) 10 "94101" (by decide)⟩

theorem lookup_getElem_of_nodup {α : Type} :
    ∀ (d : List (String × α)), (keys d).Nodup →
    ∀ (i : Nat) (hi : i < d.length), lookup d d[i].1 = some d[i].2 := by
  intro d
  induction d with
  | nil => intro _ i hi; simp at hi
  | cons e rest ih =>
      intro hnd i hi
      obtain ⟨k, v⟩ := e
      have hnd0 : (k :: keys rest).Nodup := by
        have hkeq : keys ((k, v) :: rest) = k :: keys rest := by simp [keys]
        rwa [hkeq] at hnd
      have hnd' := List.nodup_cons.mp hnd0
      cases i with
      | zero => simp [lookup]
      | succ j =>
          have hj : j < rest.length := by simpa using hi
          have hmem : rest[j].1 ∈ keys rest := by
            simp only [keys]
            exact List.mem_map_of_mem _ (List.getElem_mem ..)
          have hne : rest[j].1 ≠ k := by
            intro hEq
            exact hnd'.1 (hEq ▸ hmem)
          simp only [List.getElem_cons_succ, lookup, if_neg hne]
          exact ih hnd'.2 j hj

/-- C10: `get_lat_long_params` returns three lists of length equal to the
number of entries of the input; at every index the latitude and longitude
are exactly the `lat` and `lng` stored in the input under the zip code at
that index; and the zip-code list enumerates every key of the input exactly
once. -/
theorem C10_param_lists (nearby_locs : List (String × LocInfo))
    (hnd : (keys nearby_locs).Nodup) :
    (get_lat_long_params nearby_locs).1.length = nearby_locs.length ∧
    (get_lat_long_params nearby_locs).2.1.length = nearby_locs.length ∧
    (get_lat_long_params nearby_locs).2.2.length = nearby_locs.length ∧
    (∀ i, i < nearby_locs.length →
      ∃ k v, (get_lat_long_params nearby_locs).1[i]? = some k ∧
        lookup nearby_locs k = some v ∧
        (get_lat_long_params nearby_locs).2.1[i]? = some v.lat ∧
        (get_lat_long_params nearby_locs).2.2[i]? = some v.lng) ∧
    (get_lat_long_params nearby_locs).1 = keys nearby_locs ∧
    (∀ k ∈ keys nearby_locs, (get_lat_long_params nearby_locs).1.count k = 1) := by
  refine ⟨by simp [get_lat_long_params], by simp [get_lat_long_params],
    by simp [get_lat_long_params], ?_, rfl, ?_⟩
  · intro i hi
    refine ⟨nearby_locs[i].1, nearby_locs[i].2, ?_, ?_, ?_, ?_⟩
    · simp [get_lat_long_params, List.getElem?_map, List.getElem?_eq_getElem hi]
    · exact lookup_getElem_of_nodup nearby_locs hnd i hi
    · simp [get_lat_long_params, List.getElem?_map, List.getElem?_eq_getElem hi]
    · simp [get_lat_long_params, List.getElem?_map, List.getElem?_eq_getElem hi]
  · intro k hk
    exact List.count_eq_one_of_mem hnd hk

theorem C10_param_lists_witness :
    (keys demoLocs).Nodup ∧
    (get_lat_long_params demoLocs).1.length = demoLocs.length :=
  ⟨by decide, (C10_param_lists demoLocs (by decide)).1⟩

/-- C6: every location block printed by `display_results` shows the
record's current and max temperature rounded to one decimal place (Python
`round`, half to even), for the record looked up under the printed zip
code. -/
theorem C6_rounded_display (wr : List (String × WRec)) (my cz : String)
    (out : DisplayOut) (h : display_results wr my cz = some out) :
    ∀ s ∈ out.shown, ∃ r, lookup wr s.zip_code = some r ∧
      s.city = r.city ∧ s.curr_temp = pyRound1 r.curr_temp ∧
      s.max_temp = pyRound1 r.max_temp := by
  intro s hs
  unfold display_results at h
  by_cases hmz : my = cz
  · rw [if_pos hmz] at h
    cases hl : lookup wr my with
    | none => simp [hl] at h
    | some r =>
        simp [hl] at h
        subst h
        simp at hs
        subst hs
        exact ⟨r, by simpa using hl, rfl, rfl, rfl⟩
  · rw [if_neg hmz] at h
    cases hl1 : lookup wr my with
    | none => simp [hl1] at h
    | some r1 =>
        cases hl2 : lookup wr cz with
        | none => simp [hl1, hl2] at h
        | some r2 =>
            simp [hl1, hl2] at h
            subst h
            simp at hs
            rcases hs with hs | hs <;> subst hs
            · exact ⟨r1, by simpa using hl1, rfl, rfl, rfl⟩
            · exact ⟨r2, by simpa using hl2, rfl, rfl, rfl⟩

theorem C6_rounded_display_witness :
    display_results demoWeather "94101" "94102" = some demoDisplayOut ∧
    ∀ s ∈ demoDisplayOut.shown, ∃ r, lookup demoWeather s.zip_code = some r ∧
      s.city = r.city ∧ s.curr_temp = pyRound1 r.curr_temp ∧
      s.max_temp = pyRound1 r.max_temp :=
  ⟨by decide,
   C6_rounded_display demoWeather "94101" "94102" demoDisplayOut (by decide)⟩

/-- C8: `display_results` always prints a block for the origin zip code; it
prints a second block, for the coolest zip code, exactly when that differs
from the origin; and it prints the your-zip-is-the-coolest notice exactly
when the two coincide. -/
theorem C8_origin_and_conditional_coolest (wr : List (String × WRec))
    (my cz : String) (out : DisplayOut)
    (h : display_results wr my cz = some out) :
    (out.shown.map (fun s => s.zip_code) =
      if my = cz then [my] else [my, cz]) ∧
    (out.coolest_notice = true ↔ my = cz) := by
  unfold display_results at h
  by_cases hmz : my = cz
  · rw [if_pos hmz] at h
    cases hl : lookup wr my with
    | none => simp [hl] at h
    | some r =>
        simp [hl] at h
        subst h
        simp [hmz]
  · rw [if_neg hmz] at h
    cases hl1 : lookup wr my with
    | none => simp [hl1] at h
    | some r1 =>
        cases hl2 : lookup wr cz with
        | none => simp [hl1, hl2] at h
        | some r2 =>
            simp [hl1, hl2] at h
            subst h
            simp [hmz]

theorem C8_origin_and_conditional_coolest_witness :
    display_results demoWeather "94101" "94102" = some demoDisplayOut ∧
    (demoDisplayOut.shown.map (fun s => s.zip_code) =
      if "94101" = "94102" then ["94101"] else ["94101", "94102"]) ∧
    (demoDisplayOut.coolest_notice = true ↔ "94101" = "94102") :=
  ⟨by decide,
   C8_origin_and_conditional_coolest demoWeather "94101" "94102"
     demoDisplayOut (by decide)⟩

theorem get_weather_loop_keys_subset (locs : List (String × LocInfo))
    (zips : List String) :
    ∀ (resps : List (Option RespData)) (i : Nat) (acc : List (String × WRec))
      (w : List (String × WRec)),
    (∀ k ∈ keys acc, k ∈ keys locs) →
    get_weather_loop locs zips i resps acc = some w →
    ∀ k ∈ keys w, k ∈ keys locs := by
  intro resps
  induction resps with
  | nil =>
      intro i acc w hacc h k hk
      simp [get_weather_loop] at h
      subst h
      exact hacc k hk
  | cons r rest ih =>
      intro i acc w hacc h k hk
      cases hz : zips[i]? with
      | none => simp [get_weather_loop, hz] at h
      | some zc =>
          cases hl : lookup locs zc with
          | none => simp [get_weather_loop, hz, hl] at h
          | some loc =>
              cases r with
              | none => simp [get_weather_loop, hz, hl] at h
              | some d =>
                  simp only [get_weather_loop, hz, hl] at h
                  refine ih (i + 1) _ w ?_ h k hk
                  intro a ha
                  rcases keys_dinsert_subset acc zc _ a ha with rfl | hmem
                  · simpa [keys] using List.mem_map_of_mem Prod.fst (lookup_mem hl)
                  · exact hacc a hmem

/-- C7: every key of the dictionary returned by `get_weather` is a key of
the nearby-locations dictionary it was given; the weather fetcher never
invents a record for a location it was not asked about. -/
theorem C7_no_invented_records (locs : List (String × LocInfo))
    (resps : List (Option RespData)) (w : List (String × WRec))
    (h : get_weather locs resps = some w) :
    ∀ k ∈ keys w, k ∈ keys locs :=
  get_weather_loop_keys_subset locs (get_lat_long_params locs).1 resps 0 [] w
    (by simp [keys]) h

theorem C7_no_invented_records_witness :
    get_weather demoLocs demoGoodResps = some demoGoodWeather ∧
    ∀ k ∈ keys demoGoodWeather, k ∈ keys demoLocs :=
  ⟨by decide,
   C7_no_invented_records demoLocs demoGoodResps demoGoodWeather (by decide)⟩

theorem scanStep_eq_pstep (a : String × ℚ) (e : String × WRec) :
    scanStep a e = pstep a (toPair e) := rfl

theorem foldl_scanStep_eq_pstep (l : List (String × WRec)) (a : String × ℚ) :
    l.foldl scanStep a = (l.map toPair).foldl pstep a := by
  rw [List.foldl_map]
  rfl

theorem minList_cons (m : ℚ) (p : String × ℚ) (ps : List (String × ℚ)) :
    minList m (p :: ps) = minList (min m p.2) ps := rfl

theorem minList_le_start : ∀ (ps : List (String × ℚ)) (m : ℚ), minList m ps ≤ m := by
  intro ps
  induction ps with
  | nil => intro m; exact le_refl m
  | cons p ps ih =>
      intro m
      rw [minList_cons]
      exact le_trans (ih (min m p.2)) (min_le_left _ _)

theorem minList_le_mem : ∀ (ps : List (String × ℚ)) (m : ℚ) (p : String × ℚ),
    p ∈ ps → minList m ps ≤ p.2 := by
  intro ps
  induction ps with
  | nil => intro m p hp; simp at hp
  | cons q ps ih =>
      intro m p hp
      rw [minList_cons]
      rcases List.mem_cons.mp hp with rfl | hp'
      · exact le_trans (minList_le_start ps (min m p.2)) (min_le_right _ _)
      · exact ih (min m q.2) p hp'

theorem pstep_snd (a p : String × ℚ) : (pstep a p).2 = min a.2 p.2 := by
  unfold pstep
  by_cases h : p.2 < a.2
  · simp [h, min_eq_right h.le]
  · simp [h, min_eq_left (not_lt.mp h)]

theorem foldl_pstep_find : ∀ (ps : List (String × ℚ)) (a : String × ℚ),
    (a :: ps).find? (fun p => p.2 = minList a.2 ps) = some (ps.foldl pstep a) := by
  intro ps
  induction ps with
  | nil =>
      intro a
      simp [minList, List.find?]
  | cons p ps ih =>
      intro a
      have hsnd : (pstep a p).2 = min a.2 p.2 := pstep_snd a p
      have hmin : minList a.2 (p :: ps) = minList (pstep a p).2 ps := by
        rw [minList_cons, hsnd]
      have hfold : (p :: ps).foldl pstep a = ps.foldl pstep (pstep a p) := rfl
      rw [hmin, hfold]
      by_cases h : p.2 < a.2
      · have ha' : pstep a p = p := by simp [pstep, h]
        have hM : minList (pstep a p).2 ps ≤ p.2 := by
          rw [ha']; exact minList_le_start ps p.2
        have hane : ¬(a.2 = minList (pstep a p).2 ps) :=
          ne_of_gt (lt_of_le_of_lt hM h)
        rw [List.find?_cons_of_neg _ (by simpa using hane)]
        rw [ha']
        exact ih p
      · have ha' : pstep a p = a := by simp [pstep, h]
        rw [ha'] at hsnd ⊢
        have hIH := ih a
        by_cases hA : a.2 = minList a.2 ps
        · rw [List.find?_cons_of_pos _ (by simpa using hA)]
          rw [List.find?_cons_of_pos _ (by simpa using hA)] at hIH
          exact hIH
        · have hMa : minList a.2 ps < a.2 :=
            lt_of_le_of_ne (minList_le_start ps a.2) (fun hEq => hA hEq.symm)
          have hpne : ¬(p.2 = minList a.2 ps) :=
            ne_of_gt (lt_of_lt_of_le hMa (not_lt.mp h))
          rw [List.find?_cons_of_neg _ (by simpa using hA)]
          rw [List.find?_cons_of_neg _ (by simpa using hpne)]
          rw [List.find?_cons_of_neg _ (by simpa using hA)] at hIH
          exact hIH

theorem foldl_scanStep_le : ∀ (l : List (String × WRec)) (a : String × ℚ),
    (l.foldl scanStep a).2 ≤ a.2 ∧
    ∀ e ∈ l, (l.foldl scanStep a).2 ≤ e.2.max_temp := by
  intro l
  induction l with
  | nil => intro a; exact ⟨le_refl _, by intro e he; simp at he⟩
  | cons e l ih =>
      intro a
      have hstep : (scanStep a e).2 ≤ a.2 ∧ (scanStep a e).2 ≤ e.2.max_temp := by
        unfold scanStep
        by_cases h : e.2.max_temp < a.2
        · simp [h, h.le]
        · simp [h, not_lt.mp h]
      have hfold : (e :: l).foldl scanStep a = l.foldl scanStep (scanStep a e) := rfl
      rw [hfold]
      refine ⟨le_trans (ih (scanStep a e)).1 hstep.1, ?_⟩
      intro f hf
      rcases List.mem_cons.mp hf with heq | hf'
      · rw [heq]
        exact le_trans (ih (scanStep a e)).1 hstep.2
      · exact (ih (scanStep a e)).2 f hf'

theorem foldl_scanStep_prov :
    ∀ (l : List (String × WRec)) (a : String × ℚ) (S : List (String × WRec)),
    (∃ rec, (a.1, rec) ∈ S ∧ a.2 = rec.max_temp) → (∀ e ∈ l, e ∈ S) →
    ∃ rec, ((l.foldl scanStep a).1, rec) ∈ S ∧
      (l.foldl scanStep a).2 = rec.max_temp := by
  intro l
  induction l with
  | nil => intro a S ha _; exact ha
  | cons e l ih =>
      intro a S ha hl
      have hfold : (e :: l).foldl scanStep a = l.foldl scanStep (scanStep a e) := rfl
      rw [hfold]
      refine ih (scanStep a e) S ?_ (fun f hf => hl f (List.mem_cons_of_mem _ hf))
      unfold scanStep
      by_cases h : e.2.max_temp < a.2
      · simp only [h, if_pos]
        exact ⟨e.2, by simpa using hl e (List.mem_cons_self _ _), rfl⟩
      · simp only [h, if_neg, ite_false]
        exact ha

/-- C1: when `my_zip` is a key of the weather results,
`calculate_coolest_zip` agrees with the spec selection (candidates are the
originating record followed by the scanned records in order; the earliest
candidate attaining the minimum `max_temp` wins, so a later record replaces
the current candidate only when strictly smaller) and the returned zip code
owns a record of minimum `max_temp` among all records. -/
theorem C1_min_first_wins (wr : List (String × WRec)) (my_zip : String)
    (h : my_zip ∈ keys wr) :
    calculate_coolest_zip wr my_zip = specCoolest wr my_zip ∧
    ∃ z rec, calculate_coolest_zip wr my_zip = some z ∧ (z, rec) ∈ wr ∧
      ∀ e ∈ wr, rec.max_temp ≤ e.2.max_temp := by
  obtain ⟨r, hr⟩ := lookup_isSome_of_mem_keys h
  have hps : wr.map (fun e => (e.1, e.2.max_temp)) = wr.map toPair := rfl
  constructor
  · unfold calculate_coolest_zip specCoolest
    rw [hr]
    simp only [Option.map_some', Option.some_bind]
    rw [hps]
    have hm : ((my_zip, r.max_temp) :: wr.map toPair).foldl
        (fun x p => min x p.2) r.max_temp =
        minList (my_zip, r.max_temp).2 (wr.map toPair) := by
      simp [minList, List.foldl_cons, min_self]
    rw [hm, foldl_pstep_find (wr.map toPair) (my_zip, r.max_temp)]
    rw [foldl_scanStep_eq_pstep]
    rfl
  · have hprov := foldl_scanStep_prov wr (my_zip, r.max_temp) wr
      ⟨r, lookup_mem hr, rfl⟩ (fun e he => he)
    obtain ⟨rec, hmem, hval⟩ := hprov
    refine ⟨(wr.foldl scanStep (my_zip, r.max_temp)).1, rec, ?_, hmem, ?_⟩
    · unfold calculate_coolest_zip
      rw [hr]
      rfl
    · intro e he
      exact hval ▸ (foldl_scanStep_le wr (my_zip, r.max_temp)).2 e he

theorem C1_min_first_wins_witness :
    "94101" ∈ keys demoWeather ∧
    (calculate_coolest_zip demoWeather "94101" = specCoolest demoWeather "94101" ∧
    ∃ z rec, calculate_coolest_zip demoWeather "94101" = some z ∧
      (z, rec) ∈ demoWeather ∧
      ∀ e ∈ demoWeather, rec.max_temp ≤ e.2.max_temp) :=
  ⟨by decide, C1_min_first_wins demoWeather "94101" (by decide)⟩

end Becool
